import Mathlib

/-!
# NFC NDEF record encoding (nRF5 SDK experimental NFC, `nfc_ndef_record.h`)

A shallow embedding of the NDEF record codec declared in
`src/targetlibs/nrf5x/nrf5_sdk/components/experimental_nfc/ndef/generic/record/nfc_ndef_record.h`.
The header gives the data model (TNF values, record locations, record and
binary-payload descriptors) and declares `nfc_ndef_record_encode` and
`nfc_ndef_bin_payload_memcopy`; the bodies of those two functions are not part
of the repository snapshot, so they are modelled from the specification's
algorithm description (header/flags encoder and the two-phase record encoder).

Bytes are modelled as `Nat` values below 256, byte buffers as `List Nat`,
`ret_code_t` as an explicit error inductive, and the fallible C functions as
`Except`-returning Lean functions.
-/

namespace NfcNdef

/-- Error part of `ret_code_t` (from `sdk_errors.h`): the codes the record
encoder surfaces, plus an opaque passthrough code for payload constructors. -/
inductive ErrCode where
  /-- `NRF_ERROR_NO_MEM`: predicted or actual size exceeds the buffer space. -/
  | NRF_ERROR_NO_MEM : ErrCode
  /-- `NRF_ERROR_INVALID_PARAM`: the record location is erroneous. -/
  | NRF_ERROR_INVALID_PARAM : ErrCode
  /-- Opaque constructor-specific code, propagated unchanged. -/
  | constructorErr : Nat → ErrCode
deriving DecidableEq, Repr

/-- TNF value `TNF_EMPTY = 0x00` from the `nfc_ndef_record_tnf_t` enum. -/
def TNF_EMPTY : Nat := 0x00

/-- TNF value `TNF_WELL_KNOWN = 0x01` from the `nfc_ndef_record_tnf_t` enum. -/
def TNF_WELL_KNOWN : Nat := 0x01

/-- TNF value `TNF_MEDIA_TYPE = 0x02` from the `nfc_ndef_record_tnf_t` enum. -/
def TNF_MEDIA_TYPE : Nat := 0x02

/-- TNF value `TNF_ABSOLUTE_URI = 0x03` from the `nfc_ndef_record_tnf_t` enum. -/
def TNF_ABSOLUTE_URI : Nat := 0x03

/-- TNF value `TNF_EXTERNAL_TYPE = 0x04` from the `nfc_ndef_record_tnf_t` enum. -/
def TNF_EXTERNAL_TYPE : Nat := 0x04

/-- TNF value `TNF_UNKNOWN_TYPE = 0x05` from the `nfc_ndef_record_tnf_t` enum. -/
def TNF_UNKNOWN_TYPE : Nat := 0x05

/-- TNF value `TNF_UNCHANGED = 0x06` from the `nfc_ndef_record_tnf_t` enum. -/
def TNF_UNCHANGED : Nat := 0x06

/-- TNF value `TNF_RESERVED = 0x07` from the `nfc_ndef_record_tnf_t` enum. -/
def TNF_RESERVED : Nat := 0x07

/-- Location value `NDEF_FIRST_RECORD = 0x80` from the `nfc_ndef_record_location_t` enum. -/
def NDEF_FIRST_RECORD : Nat := 0x80

/-- Location value `NDEF_MIDDLE_RECORD = 0x00` from the `nfc_ndef_record_location_t` enum. -/
def NDEF_MIDDLE_RECORD : Nat := 0x00

/-- Location value `NDEF_LAST_RECORD = 0x40` from the `nfc_ndef_record_location_t` enum. -/
def NDEF_LAST_RECORD : Nat := 0x40

/-- Location value `NDEF_LONE_RECORD = 0xC0` from the `nfc_ndef_record_location_t` enum. -/
def NDEF_LONE_RECORD : Nat := 0xC0

/-- Mask `NDEF_RECORD_LOCATION_MASK` = `NDEF_LONE_RECORD` (0xC0): mask of the Record
Location bits in the NDEF record's flags byte. -/
def NDEF_RECORD_LOCATION_MASK : Nat := NDEF_LONE_RECORD

/-- A location value is one of the four values defined by the
`nfc_ndef_record_location_t` enum. -/
def validLocation (loc : Nat) : Prop :=
  loc = NDEF_FIRST_RECORD ∨ loc = NDEF_MIDDLE_RECORD ∨
  loc = NDEF_LAST_RECORD ∨ loc = NDEF_LONE_RECORD

instance (loc : Nat) : Decidable (validLocation loc) := by
  unfold validLocation; infer_instance

/-- Payload constructor type `p_payload_constructor_t`: the C function receives
the available length and writes payload bytes into the destination span; the
functional model receives the available length and returns the byte list it
wrote (or an error code). -/
def PayloadConstructor : Type := Nat → Except ErrCode (List Nat)

/-- The §4.1 contract every payload constructor must satisfy: it never writes
past the given available length. -/
def ConstructorWithinBounds (f : PayloadConstructor) : Prop :=
  ∀ len l, f len = Except.ok l → l.length ≤ len

/-- Record descriptor `nfc_ndef_record_desc_t`: the NDEF record descriptor. The C struct stores
`id_length`/`p_id` and `type_length`/`p_type` as a length plus a pointer; the
model stores the referenced byte sequences themselves, so the length fields are
the list lengths. The payload constructor and its opaque descriptor pointer
are modelled together as one `PayloadConstructor` closure. -/
structure nfc_ndef_record_desc_t where
  /-- Value of the Type Name Format (TNF) field. -/
  tnf : Nat
  /-- The ID field data (`p_id`, `id_length` bytes). -/
  p_id : List Nat
  /-- The Type field data (`p_type`, `type_length` bytes). -/
  p_type : List Nat
  /-- The payload constructor together with its payload descriptor. -/
  payload_constructor : PayloadConstructor

/-- Length of the ID field (`id_length`; if 0, a record format without ID
field is assumed). -/
def nfc_ndef_record_desc_t.id_length (d : nfc_ndef_record_desc_t) : Nat :=
  d.p_id.length

/-- Length of the Type field (`type_length`). -/
def nfc_ndef_record_desc_t.type_length (d : nfc_ndef_record_desc_t) : Nat :=
  d.p_type.length

/-- Validity of a record descriptor, from the C types and the spec's data-model
invariants: TNF is a 3-bit value, ID and Type lengths fit in one byte
(`uint8_t` fields in the struct), and the constructor honours its §4.1
contract. -/
def validDesc (d : nfc_ndef_record_desc_t) : Prop :=
  d.tnf < 8 ∧ d.id_length ≤ 255 ∧ d.type_length ≤ 255 ∧
  ConstructorWithinBounds d.payload_constructor

/-- Binary data descriptor `nfc_ndef_bin_payload_desc_t`: binary data descriptor containing the
payload for the record.  The C struct is a pointer plus a `uint32_t` length;
the model stores the referenced bytes, so `payload_length` is the list
length. -/
structure nfc_ndef_bin_payload_desc_t where
  /-- The payload bytes (`p_payload`, `payload_length` bytes). -/
  p_payload : List Nat

/-- Length of the binary payload data in bytes (`payload_length`). -/
def nfc_ndef_bin_payload_desc_t.payload_length
    (pd : nfc_ndef_bin_payload_desc_t) : Nat :=
  pd.p_payload.length

/-- Modelled from the spec: the body of `nfc_ndef_bin_payload_memcopy` is not
in the repository snapshot (the header only declares it).  Per §4.2: if
`binary_payload.length > available_length`, fail with OutOfSpace
(`NRF_ERROR_NO_MEM`) and report no bytes written; else copy
`binary_payload.length` bytes into the destination and report that count as
written.  The returned list is the bytes written to the destination. -/
def nfc_ndef_bin_payload_memcopy (pd : nfc_ndef_bin_payload_desc_t)
    (len : Nat) : Except ErrCode (List Nat) :=
  if pd.payload_length > len then Except.error ErrCode.NRF_ERROR_NO_MEM
  else Except.ok pd.p_payload

/-- Number of payload bytes a constructor call reports as written: the output
value of the C in/out `p_len` parameter — the written count on success, zero
when the call failed having written nothing. -/
def reportedWritten (r : Except ErrCode (List Nat)) : Nat :=
  match r with
  | Except.ok l => l.length
  | Except.error _ => 0

/-- MessageBegin flag determined by the record location: 1 for First and Lone
records, 0 for Middle and Last records. -/
def locationMB (loc : Nat) : Nat :=
  if loc = NDEF_FIRST_RECORD ∨ loc = NDEF_LONE_RECORD then 1 else 0

/-- MessageEnd flag determined by the record location: 1 for Last and Lone
records, 0 for First and Middle records. -/
def locationME (loc : Nat) : Nat :=
  if loc = NDEF_LAST_RECORD ∨ loc = NDEF_LONE_RECORD then 1 else 0

/-- ShortRecord flag: 1 iff the actual payload length fits in one byte. -/
def shortRecordFlag (payloadLen : Nat) : Nat :=
  if payloadLen ≤ 255 then 1 else 0

/-- IdLengthPresent flag: 1 iff the descriptor's ID length > 0. -/
def idPresentFlag (d : nfc_ndef_record_desc_t) : Nat :=
  if d.id_length > 0 then 1 else 0

/-- Modelled from the spec: the header/flags encoder (§4.3) is part of the
missing `nfc_ndef_record.c`.  The leading flags byte is
`MessageBegin<<7 | MessageEnd<<6 | ChunkFlag(0)<<5 | ShortRecord<<4 |
IdLengthPresent<<3 | TNF`. -/
def flagsByte (d : nfc_ndef_record_desc_t) (loc : Nat) (payloadLen : Nat) :
    Nat :=
  locationMB loc <<< 7 ||| locationME loc <<< 6 ||| 0 <<< 5 |||
    shortRecordFlag payloadLen <<< 4 ||| idPresentFlag d <<< 3 ||| d.tnf

/-- Modelled from the spec: the `PAYLOAD_LENGTH` field emitted by the missing
header encoder — 1 byte if ShortRecord, else 4 bytes big-endian. -/
def payloadLenField (payloadLen : Nat) : List Nat :=
  if payloadLen ≤ 255 then [payloadLen]
  else [payloadLen >>> 24 % 256, payloadLen >>> 16 % 256,
        payloadLen >>> 8 % 256, payloadLen % 256]

/-- Modelled from the spec: the full record header emitted by the missing
header encoder (§4.3): flags byte, `TYPE_LENGTH`, `PAYLOAD_LENGTH`,
`ID_LENGTH` (only if IdLengthPresent), the raw Type bytes and, if present,
the raw ID bytes. -/
def headerBytes (d : nfc_ndef_record_desc_t) (loc : Nat) (payloadLen : Nat) :
    List Nat :=
  flagsByte d loc payloadLen :: d.type_length ::
    (payloadLenField payloadLen ++
      (if d.id_length > 0 then [d.id_length] else []) ++
      d.p_type ++ d.p_id)

/-- Maximum possible fixed header size (§4.4 step 2), assuming a 4-byte (long)
payload-length field: `1 (flags) + 1 (type_len) + 4 (payload_len) +
(1 if id present) + type_length + id_length`. -/
def maxHeaderSize (d : nfc_ndef_record_desc_t) : Nat :=
  1 + 1 + 4 + (if d.id_length > 0 then 1 else 0) + d.type_length + d.id_length

/-- True header size once the actual payload length is known (§4.4 step 4):
1 byte shorter than the worst case if the short form applies — 3 bytes
shorter, since the payload-length field shrinks from 4 bytes to 1. -/
def trueHeaderSize (d : nfc_ndef_record_desc_t) (payloadLen : Nat) : Nat :=
  1 + 1 + (if payloadLen ≤ 255 then 1 else 4) +
    (if d.id_length > 0 then 1 else 0) + d.type_length + d.id_length

/-- Modelled from the spec: the body of `nfc_ndef_record_encode` is not in the
repository snapshot (the header only declares it).  The §4.4 two-phase
algorithm: (1) validate the location, else `NRF_ERROR_INVALID_PARAM`;
(2) reserve the worst-case header size as the payload write position, failing
with OutOfSpace (`NRF_ERROR_NO_MEM`) when it exceeds the capacity;
(3) invoke the payload constructor with the remaining capacity, propagating
its failure verbatim; (4)–(6) decide ShortRecord from the actual payload
length, write the true header at the start and relocate the payload to follow
it; (7) the result is the finished record of true header size plus actual
payload length bytes (the reported length is the length of the returned
list). -/
def nfc_ndef_record_encode (d : nfc_ndef_record_desc_t) (loc : Nat)
    (capacity : Nat) : Except ErrCode (List Nat) :=
  if ¬ validLocation loc then Except.error ErrCode.NRF_ERROR_INVALID_PARAM
  else if maxHeaderSize d > capacity then Except.error ErrCode.NRF_ERROR_NO_MEM
  else
    match d.payload_constructor (capacity - maxHeaderSize d) with
    | Except.error e => Except.error e
    | Except.ok payload => Except.ok (headerBytes d loc payload.length ++ payload)

/-- Result of parsing an encoded NDEF record back into its fields. -/
structure DecodedRecord where
  /-- The TNF value recovered from the low 3 bits of the flags byte. -/
  tnf : Nat
  /-- The ID bytes (empty when the IL bit is 0). -/
  idBytes : List Nat
  /-- The Type bytes. -/
  typeBytes : List Nat
  /-- The payload bytes. -/
  payloadBytes : List Nat
deriving DecidableEq, Repr

/-- Record-body parser used by `decodeRecord` after the flags byte,
`TYPE_LENGTH` and `PAYLOAD_LENGTH` have been read: reads the optional
`ID_LENGTH` byte (present iff the IL bit was 1), then slices the Type bytes,
the optional ID bytes and the payload bytes, in that order. -/
def decodeFields (tnfVal il typeLen payloadLen : Nat) (rest : List Nat) :
    Option DecodedRecord :=
  if il = 1 then
    match rest with
    | idLen :: rest2 =>
      if typeLen + idLen + payloadLen ≤ rest2.length then
        some ⟨tnfVal, (rest2.drop typeLen).take idLen, rest2.take typeLen,
              ((rest2.drop typeLen).drop idLen).take payloadLen⟩
      else none
    | [] => none
  else
    if typeLen + payloadLen ≤ rest.length then
      some ⟨tnfVal, [], rest.take typeLen, (rest.drop typeLen).take payloadLen⟩
    else none

/-- Decoder written from the round-trip property's own words (the claim is a
refinement statement, so this definition follows the wire format of §6 rather
than any source function): parse the flags byte (SR bit selects a 1-byte or
4-byte big-endian `PAYLOAD_LENGTH`, IL selects the optional `ID_LENGTH`,
low 3 bits are the TNF), then `TYPE_LENGTH`, then `PAYLOAD_LENGTH`, then
slice the Type, optional ID, and payload bytes. -/
def decodeRecord (bytes : List Nat) : Option DecodedRecord :=
  match bytes with
  | flags :: typeLen :: rest =>
    if flags >>> 4 % 2 = 1 then
      match rest with
      | payloadLen :: rest2 =>
          decodeFields (flags % 8) (flags >>> 3 % 2) typeLen payloadLen rest2
      | [] => none
    else
      match rest with
      | b0 :: b1 :: b2 :: b3 :: rest2 =>
          decodeFields (flags % 8) (flags >>> 3 % 2) typeLen
            (b0 * 2 ^ 24 + b1 * 2 ^ 16 + b2 * 2 ^ 8 + b3) rest2
      | _ => none
  | _ => none

/-- Write the bytes of `data` into `mem` starting at index `off`
(out-of-range writes, which never happen in the verified paths, leave the
memory unchanged, as `List.set` does). -/
def blit : List Nat → Nat → List Nat → List Nat
  | mem, _, [] => mem
  | mem, off, b :: bs => blit (mem.set off b) (off + 1) bs

/-- Modelled from the spec: byte-level view of the missing
`nfc_ndef_record_encode` body, identical to `nfc_ndef_record_encode` except
that the caller-supplied destination buffer is explicit, so that the writes
the §4.4 algorithm performs can be observed: the payload is materialized at
the worst-case header offset (step 3), the true header is written at the
start (step 5), and the payload is relocated to follow the true header when
the short form applies (step 6).  Returns the `ret_code_t` (carrying the
reported record length on success) together with the memory after the
call. -/
def nfc_ndef_record_encode_mem (d : nfc_ndef_record_desc_t) (loc : Nat)
    (mem : List Nat) (capacity : Nat) : Except ErrCode Nat × List Nat :=
  if ¬ validLocation loc then
    (Except.error ErrCode.NRF_ERROR_INVALID_PARAM, mem)
  else if maxHeaderSize d > capacity then
    (Except.error ErrCode.NRF_ERROR_NO_MEM, mem)
  else
    match d.payload_constructor (capacity - maxHeaderSize d) with
    | Except.error e => (Except.error e, mem)
    | Except.ok payload =>
      let mem1 := blit mem (maxHeaderSize d) payload
      let mem2 := blit mem1 0 (headerBytes d loc payload.length)
      let mem3 :=
        if payload.length ≤ 255 then
          blit mem2 (trueHeaderSize d payload.length) payload
        else mem2
      (Except.ok (trueHeaderSize d payload.length + payload.length), mem3)

/-- Binary payload descriptor of the §8 scenario: the 3 bytes
`{0x02, 'e', 'n'}`. -/
def binPayloadTextEn : nfc_ndef_bin_payload_desc_t := ⟨[0x02, 101, 110]⟩

/-- Record descriptor of the §8 scenario: TNF=WellKnown, no ID, Type `"T"`
(one byte, 0x54), binary payload `{0x02, 'e', 'n'}`. -/
def descTextEn : nfc_ndef_record_desc_t :=
  { tnf := TNF_WELL_KNOWN, p_id := [], p_type := [84],
    payload_constructor := nfc_ndef_bin_payload_memcopy binPayloadTextEn }

/-- Concrete descriptor with an ID field: TNF=MediaType, 2-byte ID, 2-byte
Type, 4-byte binary payload. -/
def descWithId : nfc_ndef_record_desc_t :=
  { tnf := TNF_MEDIA_TYPE, p_id := [9, 8], p_type := [84, 85],
    payload_constructor := nfc_ndef_bin_payload_memcopy ⟨[1, 2, 3, 4]⟩ }

/-- Concrete descriptor whose binary payload is exactly 255 bytes, the last
length for which the short-record form applies. -/
def descPayload255 : nfc_ndef_record_desc_t :=
  { tnf := TNF_WELL_KNOWN, p_id := [], p_type := [84],
    payload_constructor :=
      nfc_ndef_bin_payload_memcopy ⟨List.replicate 255 7⟩ }

/-- Concrete descriptor whose binary payload is exactly 256 bytes, the first
length that forces the long (4-byte) payload-length field. -/
def descPayload256 : nfc_ndef_record_desc_t :=
  { tnf := TNF_WELL_KNOWN, p_id := [], p_type := [84],
    payload_constructor :=
      nfc_ndef_bin_payload_memcopy ⟨List.replicate 256 7⟩ }

/-- Concrete descriptor with a 1-byte Type and a 1-byte binary payload. -/
def descTiny : nfc_ndef_record_desc_t :=
  { tnf := TNF_MEDIA_TYPE, p_id := [], p_type := [85],
    payload_constructor := nfc_ndef_bin_payload_memcopy ⟨[7]⟩ }

end NfcNdef

namespace NfcNdef

/-!
## Supporting lemmas
-/

theorem bits_decomp (a b c e t : Nat) (ha : a ≤ 1) (hb : b ≤ 1) (hc : c ≤ 1)
    (he : e ≤ 1) (ht : t < 8) :
    a <<< 7 ||| b <<< 6 ||| 0 <<< 5 ||| c <<< 4 ||| e <<< 3 ||| t =
      128 * a + 64 * b + 16 * c + 8 * e + t := by
  interval_cases a <;> interval_cases b <;> interval_cases c <;>
    interval_cases e <;> interval_cases t <;> rfl

theorem arith_bits (a b c e t : Nat) (ha : a ≤ 1) (hb : b ≤ 1) (hc : c ≤ 1)
    (he : e ≤ 1) (ht : t < 8) :
    (128 * a + 64 * b + 16 * c + 8 * e + t) % 8 = t ∧
    (128 * a + 64 * b + 16 * c + 8 * e + t) >>> 3 % 2 = e ∧
    (128 * a + 64 * b + 16 * c + 8 * e + t) >>> 4 % 2 = c ∧
    (128 * a + 64 * b + 16 * c + 8 * e + t) >>> 5 % 2 = 0 ∧
    (128 * a + 64 * b + 16 * c + 8 * e + t) &&& 192 = 128 * a + 64 * b := by
  interval_cases a <;> interval_cases b <;> interval_cases c <;>
    interval_cases e <;> interval_cases t <;> decide

theorem locationMB_le_one (loc : Nat) : locationMB loc ≤ 1 := by
  unfold locationMB; split <;> omega

theorem locationME_le_one (loc : Nat) : locationME loc ≤ 1 := by
  unfold locationME; split <;> omega

theorem shortRecordFlag_le_one (n : Nat) : shortRecordFlag n ≤ 1 := by
  unfold shortRecordFlag; split <;> omega

theorem idPresentFlag_le_one (d : nfc_ndef_record_desc_t) : idPresentFlag d ≤ 1 := by
  unfold idPresentFlag; split <;> omega

theorem flagsByte_arith (d : nfc_ndef_record_desc_t) (loc n : Nat)
    (ht : d.tnf < 8) :
    flagsByte d loc n =
      128 * locationMB loc + 64 * locationME loc + 16 * shortRecordFlag n +
        8 * idPresentFlag d + d.tnf :=
  bits_decomp _ _ _ _ _ (locationMB_le_one loc) (locationME_le_one loc)
    (shortRecordFlag_le_one n) (idPresentFlag_le_one d) ht

theorem flagsByte_bits (d : nfc_ndef_record_desc_t) (loc n : Nat)
    (ht : d.tnf < 8) :
    flagsByte d loc n % 8 = d.tnf ∧
    flagsByte d loc n >>> 3 % 2 = idPresentFlag d ∧
    flagsByte d loc n >>> 4 % 2 = shortRecordFlag n ∧
    flagsByte d loc n >>> 5 % 2 = 0 ∧
    flagsByte d loc n &&& 192 = 128 * locationMB loc + 64 * locationME loc := by
  rw [flagsByte_arith d loc n ht]
  exact arith_bits _ _ _ _ _ (locationMB_le_one loc) (locationME_le_one loc)
    (shortRecordFlag_le_one n) (idPresentFlag_le_one d) ht

theorem headerBytes_length (d : nfc_ndef_record_desc_t) (loc n : Nat) :
    (headerBytes d loc n).length = trueHeaderSize d n := by
  simp only [headerBytes, trueHeaderSize, payloadLenField, List.length_cons,
    List.length_append, nfc_ndef_record_desc_t.id_length,
    nfc_ndef_record_desc_t.type_length]
  split <;> split <;> simp <;> omega

theorem trueHeaderSize_le_max (d : nfc_ndef_record_desc_t) (n : Nat) :
    trueHeaderSize d n ≤ maxHeaderSize d := by
  unfold trueHeaderSize maxHeaderSize
  split <;> omega

theorem encode_ok_elim {d : nfc_ndef_record_desc_t} {loc cap : Nat}
    {out : List Nat}
    (h : nfc_ndef_record_encode d loc cap = Except.ok out) :
    validLocation loc ∧ maxHeaderSize d ≤ cap ∧
      ∃ pl, d.payload_constructor (cap - maxHeaderSize d) = Except.ok pl ∧
        out = headerBytes d loc pl.length ++ pl := by
  unfold nfc_ndef_record_encode at h
  by_cases hloc : validLocation loc
  · simp only [hloc, not_true_eq_false, if_false] at h
    by_cases hcap : maxHeaderSize d > cap
    · simp [hcap] at h
    · simp only [hcap, if_false] at h
      refine ⟨hloc, by omega, ?_⟩
      cases hpc : d.payload_constructor (cap - maxHeaderSize d) with
      | error e => rw [hpc] at h; simp at h
      | ok pl => rw [hpc] at h; simp at h; exact ⟨pl, rfl, h.symm⟩
  · simp [hloc] at h

theorem encode_bin_eq (d : nfc_ndef_record_desc_t)
    (bp : nfc_ndef_bin_payload_desc_t) (loc cap : Nat)
    (hc : d.payload_constructor = nfc_ndef_bin_payload_memcopy bp)
    (hloc : validLocation loc)
    (hcap : maxHeaderSize d + bp.payload_length ≤ cap) :
    nfc_ndef_record_encode d loc cap =
      Except.ok (headerBytes d loc bp.payload_length ++ bp.p_payload) := by
  unfold nfc_ndef_record_encode
  simp only [hloc, not_true_eq_false, if_false, hc]
  have h1 : ¬ (maxHeaderSize d > cap) := by omega
  simp only [h1, if_false]
  unfold nfc_ndef_bin_payload_memcopy
  have h2 : ¬ (bp.payload_length > cap - maxHeaderSize d) := by omega
  simp only [h2, if_false]
  rfl

theorem be32_recompose (n : Nat) (h : n < 2 ^ 32) :
    n >>> 24 % 256 * 2 ^ 24 + n >>> 16 % 256 * 2 ^ 16 +
      n >>> 8 % 256 * 2 ^ 8 + n % 256 = n := by
  rw [Nat.shiftRight_eq_div_pow, Nat.shiftRight_eq_div_pow,
    Nat.shiftRight_eq_div_pow]
  norm_num at h ⊢
  omega

theorem blit_getElem_ge (data : List Nat) (mem : List Nat) (off i : Nat)
    (h : off + data.length ≤ i) : (blit mem off data)[i]? = mem[i]? := by
  induction data generalizing mem off with
  | nil => rfl
  | cons b bs ih =>
    simp only [blit]
    rw [ih (mem.set off b) (off + 1) (by simp at h; omega)]
    exact List.getElem?_set_ne (by simp at h; omega)

end NfcNdef

namespace NfcNdef

theorem memcopy_within_bounds (bp : nfc_ndef_bin_payload_desc_t) :
    ConstructorWithinBounds (nfc_ndef_bin_payload_memcopy bp) := by
  intro len l h
  unfold nfc_ndef_bin_payload_memcopy at h
  split at h
  · exact absurd h (by simp)
  · rename_i hcond
    injection h with h2
    subst h2
    unfold nfc_ndef_bin_payload_desc_t.payload_length at hcond
    omega

theorem decodeRecord_cons_sr (flags typeLen payloadLen : Nat)
    (rest2 : List Nat) (h : flags >>> 4 % 2 = 1) :
    decodeRecord (flags :: typeLen :: payloadLen :: rest2) =
      decodeFields (flags % 8) (flags >>> 3 % 2) typeLen payloadLen rest2 := by
  unfold decodeRecord
  simp [h]

theorem decodeRecord_cons_long (flags typeLen b0 b1 b2 b3 : Nat)
    (rest2 : List Nat) (h : flags >>> 4 % 2 = 0) :
    decodeRecord (flags :: typeLen :: b0 :: b1 :: b2 :: b3 :: rest2) =
      decodeFields (flags % 8) (flags >>> 3 % 2) typeLen
        (b0 * 2 ^ 24 + b1 * 2 ^ 16 + b2 * 2 ^ 8 + b3) rest2 := by
  unfold decodeRecord
  simp [h]

theorem decodeFields_correct (d : nfc_ndef_record_desc_t) (tnfVal : Nat)
    (pl : List Nat) :
    decodeFields tnfVal (idPresentFlag d) d.type_length pl.length
      ((if 0 < d.id_length then [d.id_length] else []) ++
        (d.p_type ++ (d.p_id ++ pl))) =
      some ⟨tnfVal, d.p_id, d.p_type, pl⟩ := by
  by_cases hidp : 0 < d.id_length
  · have hip : idPresentFlag d = 1 := by unfold idPresentFlag; simp [hidp]
    rw [if_pos hidp, hip]
    unfold decodeFields
    simp only [List.cons_append, List.nil_append, if_pos rfl]
    have hlen : d.type_length + d.id_length + pl.length ≤
        (d.p_type ++ (d.p_id ++ pl)).length := by
      simp [nfc_ndef_record_desc_t.type_length,
        nfc_ndef_record_desc_t.id_length]
      omega
    rw [if_pos hlen]
    simp [nfc_ndef_record_desc_t.type_length,
      nfc_ndef_record_desc_t.id_length, List.take_left, List.drop_left,
      List.take_length]
  · have hip : idPresentFlag d = 0 := by unfold idPresentFlag; simp [hidp]
    have hnil : d.p_id = [] := by
      have : d.p_id.length = 0 := by
        have := hidp
        unfold nfc_ndef_record_desc_t.id_length at this
        omega
      exact List.length_eq_zero.mp this
    rw [if_neg hidp, hip]
    unfold decodeFields
    simp only [List.nil_append]
    rw [if_neg (by omega)]
    have hlen : d.type_length + pl.length ≤
        (d.p_type ++ (d.p_id ++ pl)).length := by
      simp [nfc_ndef_record_desc_t.type_length, hnil]
    rw [if_pos hlen]
    rw [hnil]
    simp [nfc_ndef_record_desc_t.type_length, List.take_left, List.drop_left,
      List.take_length]

theorem encode_mem_agrees (d : nfc_ndef_record_desc_t) (loc : Nat)
    (mem : List Nat) (cap : Nat) :
    (nfc_ndef_record_encode_mem d loc mem cap).1 =
      Except.map List.length (nfc_ndef_record_encode d loc cap) := by
  unfold nfc_ndef_record_encode_mem nfc_ndef_record_encode
  by_cases hloc : validLocation loc
  · simp only [hloc, not_true_eq_false, if_false]
    by_cases hcap : maxHeaderSize d > cap
    · simp [hcap, Except.map]
    · simp only [hcap, if_false]
      cases hpc : d.payload_constructor (cap - maxHeaderSize d) with
      | error e => simp [Except.map]
      | ok pl =>
        simp [Except.map, List.length_append, headerBytes_length]
  · simp [hloc, Except.map]

end NfcNdef

namespace NfcNdef

/-- C6: the binary payload constructor, given a binary payload descriptor and
an available length, fails with OutOfSpace (`NRF_ERROR_NO_MEM`) and reports
zero bytes written when the descriptor's `payload_length` exceeds the
available length; otherwise it copies exactly `payload_length` bytes from the
source into the destination, succeeds, and reports `payload_length` as the
written count. -/
theorem bin_payload_memcopy_spec (bp : nfc_ndef_bin_payload_desc_t)
    (len : Nat) :
    (bp.payload_length > len →
      nfc_ndef_bin_payload_memcopy bp len =
        Except.error ErrCode.NRF_ERROR_NO_MEM ∧
      reportedWritten (nfc_ndef_bin_payload_memcopy bp len) = 0) ∧
    (bp.payload_length ≤ len →
      nfc_ndef_bin_payload_memcopy bp len = Except.ok bp.p_payload ∧
      reportedWritten (nfc_ndef_bin_payload_memcopy bp len) =
        bp.payload_length) := by
  constructor
  · intro h
    unfold nfc_ndef_bin_payload_memcopy
    rw [if_pos h]
    exact ⟨rfl, rfl⟩
  · intro h
    unfold nfc_ndef_bin_payload_memcopy
    rw [if_neg (by omega)]
    exact ⟨rfl, rfl⟩

/-- C6 witness: at the concrete descriptor `{1, 2}` the failing branch fires
at available length 1 and the copying branch at available length 2. -/
theorem bin_payload_memcopy_spec_witness :
    (nfc_ndef_bin_payload_memcopy ⟨[1, 2]⟩ 1 =
        Except.error ErrCode.NRF_ERROR_NO_MEM ∧
      reportedWritten (nfc_ndef_bin_payload_memcopy ⟨[1, 2]⟩ 1) = 0) ∧
    (nfc_ndef_bin_payload_memcopy ⟨[1, 2]⟩ 2 = Except.ok [1, 2] ∧
      reportedWritten (nfc_ndef_bin_payload_memcopy ⟨[1, 2]⟩ 2) = 2) :=
  ⟨(bin_payload_memcopy_spec ⟨[1, 2]⟩ 1).1 (by decide),
   (bin_payload_memcopy_spec ⟨[1, 2]⟩ 2).2 (by decide)⟩

/-- C2: for TNF=WellKnown, no ID, the 1-byte Type `"T"`, the 3-byte binary
payload `{0x02, 'e', 'n'}` and location Lone, every sufficiently large buffer
makes encode succeed with exactly the 7 bytes `D1 01 03 54 02 65 6E`
(flags 0xD1, TYPE_LENGTH 1, PAYLOAD_LENGTH 3, Type `'T'`, then the payload),
reporting total length 7. -/
theorem encode_lone_wellknown_scenario (cap : Nat) (hcap : 10 ≤ cap) :
    nfc_ndef_record_encode descTextEn NDEF_LONE_RECORD cap =
      Except.ok [0xD1, 0x01, 0x03, 0x54, 0x02, 0x65, 0x6E] ∧
    ([0xD1, 0x01, 0x03, 0x54, 0x02, 0x65, 0x6E] : List Nat).length = 7 := by
  constructor
  · rw [encode_bin_eq descTextEn binPayloadTextEn NDEF_LONE_RECORD cap rfl
      (by decide)
      (by
        have h1 : maxHeaderSize descTextEn +
            binPayloadTextEn.payload_length = 10 := rfl
        omega)]
    rfl
  · rfl

/-- C2 witness: the scenario at the concrete capacity 10. -/
theorem encode_lone_wellknown_scenario_witness :
    nfc_ndef_record_encode descTextEn NDEF_LONE_RECORD 10 =
      Except.ok [0xD1, 0x01, 0x03, 0x54, 0x02, 0x65, 0x6E] ∧
    ([0xD1, 0x01, 0x03, 0x54, 0x02, 0x65, 0x6E] : List Nat).length = 7 :=
  encode_lone_wellknown_scenario 10 (by decide)

/-- C5 counterexample: `descTiny` is a valid descriptor (TNF=MediaType, no ID,
1-byte Type, 1-byte binary payload) whose finished record is the 5 bytes
`92 01 01 55 07`, yet calling encode with capacity 5 — exactly large enough
to hold that final record — fails with OutOfSpace instead of succeeding: the
§4.4 two-phase algorithm reserves the worst-case 4-byte payload-length header
before the payload is generated, so a short record needs 3 bytes of slack. -/
theorem encode_capacity_exact_total_fails :
    nfc_ndef_record_encode descTiny NDEF_FIRST_RECORD 8 =
      Except.ok [0x92, 0x01, 0x01, 0x55, 0x07] ∧
    ([0x92, 0x01, 0x01, 0x55, 0x07] : List Nat).length = 5 ∧
    nfc_ndef_record_encode descTiny NDEF_FIRST_RECORD 5 =
      Except.error ErrCode.NRF_ERROR_NO_MEM :=
  ⟨rfl, rfl, rfl⟩

/-- C5 (amended): for every record descriptor whose payload constructor is
the binary payload constructor, every valid location, and every buffer whose
capacity is at least the worst-case header size plus the payload length
(3 bytes beyond the final record size when the short form applies), encode
succeeds and the reported length equals the true header size (flags byte +
TYPE_LENGTH byte + 1-or-4-byte PAYLOAD_LENGTH + optional ID_LENGTH byte +
type_length + id_length) plus the actual payload length. -/
theorem encode_succeeds_reported_length (d : nfc_ndef_record_desc_t)
    (bp : nfc_ndef_bin_payload_desc_t) (loc cap : Nat)
    (hc : d.payload_constructor = nfc_ndef_bin_payload_memcopy bp)
    (hloc : validLocation loc)
    (hcap : maxHeaderSize d + bp.payload_length ≤ cap) :
    ∃ out, nfc_ndef_record_encode d loc cap = Except.ok out ∧
      out.length = trueHeaderSize d bp.payload_length + bp.payload_length := by
  refine ⟨_, encode_bin_eq d bp loc cap hc hloc hcap, ?_⟩
  rw [List.length_append, headerBytes_length]
  rfl

/-- C5 witness: the amended statement at the scenario descriptor with
capacity 12. -/
theorem encode_succeeds_reported_length_witness :
    ∃ out, nfc_ndef_record_encode descTextEn NDEF_LONE_RECORD 12 =
        Except.ok out ∧
      out.length = trueHeaderSize descTextEn binPayloadTextEn.payload_length +
        binPayloadTextEn.payload_length :=
  encode_succeeds_reported_length descTextEn binPayloadTextEn
    NDEF_LONE_RECORD 12 rfl (by decide) (by decide)

/-- C8 counterexample: `descWithId` (TNF=MediaType, 2-byte ID, 2-byte Type,
4-byte binary payload) has the 12-byte finished record
`DA 02 04 02 54 55 09 08 01 02 03 04`, yet encode with capacity exactly 12
fails with OutOfSpace: the worst-case header reservation of the §4.4
algorithm requires 15 bytes before the short form is discovered. -/
theorem encode_exact_capacity_boundary_fails :
    nfc_ndef_record_encode descWithId NDEF_LONE_RECORD 15 =
      Except.ok [0xDA, 0x02, 0x04, 0x02, 0x54, 0x55, 0x09, 0x08,
        0x01, 0x02, 0x03, 0x04] ∧
    ([0xDA, 0x02, 0x04, 0x02, 0x54, 0x55, 0x09, 0x08,
        0x01, 0x02, 0x03, 0x04] : List Nat).length = 12 ∧
    nfc_ndef_record_encode descWithId NDEF_LONE_RECORD 12 =
      Except.error ErrCode.NRF_ERROR_NO_MEM :=
  ⟨rfl, rfl, rfl⟩

/-- C8 (amended): for every record descriptor over the binary payload
constructor and every valid location, the capacity the two-phase algorithm
actually requires is the worst-case header size plus the payload length:
with exactly that capacity encode succeeds, and with one byte less it fails
with OutOfSpace (`NRF_ERROR_NO_MEM`). -/
theorem encode_worst_case_capacity_boundary (d : nfc_ndef_record_desc_t)
    (bp : nfc_ndef_bin_payload_desc_t) (loc : Nat)
    (hc : d.payload_constructor = nfc_ndef_bin_payload_memcopy bp)
    (hloc : validLocation loc) :
    (∃ out, nfc_ndef_record_encode d loc
        (maxHeaderSize d + bp.payload_length) = Except.ok out) ∧
    nfc_ndef_record_encode d loc (maxHeaderSize d + bp.payload_length - 1) =
      Except.error ErrCode.NRF_ERROR_NO_MEM := by
  constructor
  · exact ⟨_, encode_bin_eq d bp loc _ hc hloc (le_refl _)⟩
  · unfold nfc_ndef_record_encode
    simp only [hloc, not_true_eq_false, if_false, hc]
    by_cases hp : bp.payload_length = 0
    · have hgt : maxHeaderSize d > maxHeaderSize d + bp.payload_length - 1 := by
        unfold maxHeaderSize
        split <;> omega
      rw [if_pos hgt]
    · rw [if_neg (by omega)]
      unfold nfc_ndef_bin_payload_memcopy
      rw [if_pos (by omega)]

/-- C8 witness: the amended boundary at the concrete tiny descriptor —
capacity `maxHeaderSize + 1 = 8` succeeds and capacity 7 fails. -/
theorem encode_worst_case_capacity_boundary_witness :
    (∃ out, nfc_ndef_record_encode descTiny NDEF_LAST_RECORD
        (maxHeaderSize descTiny +
          nfc_ndef_bin_payload_desc_t.payload_length ⟨[7]⟩) =
        Except.ok out) ∧
    nfc_ndef_record_encode descTiny NDEF_LAST_RECORD
        (maxHeaderSize descTiny +
          nfc_ndef_bin_payload_desc_t.payload_length ⟨[7]⟩ - 1) =
      Except.error ErrCode.NRF_ERROR_NO_MEM :=
  encode_worst_case_capacity_boundary descTiny ⟨[7]⟩ NDEF_LAST_RECORD rfl
    (by decide)

end NfcNdef

namespace NfcNdef

/-- C3: for every successful encode the emitted flags byte equals
`MB<<7 | ME<<6 | 0<<5 | SR<<4 | IL<<3 | TNF` with the (MB, ME) pair
determined by the location (First=(1,0), Middle=(0,0), Last=(0,1),
Lone=(1,1)); bit 5 (Chunk Flag) of that byte is 0; and any location other
than the four defined values makes encode fail with
`NRF_ERROR_INVALID_PARAM`. -/
theorem encode_flags_byte_spec (d : nfc_ndef_record_desc_t) (loc cap : Nat)
    (out : List Nat) (htnf : d.tnf < 8) :
    (nfc_ndef_record_encode d loc cap = Except.ok out →
      ∃ pl, d.payload_constructor (cap - maxHeaderSize d) = Except.ok pl ∧
        out.head? = some
          ((if loc = NDEF_FIRST_RECORD ∨ loc = NDEF_LONE_RECORD
              then 1 else 0) <<< 7 |||
           (if loc = NDEF_LAST_RECORD ∨ loc = NDEF_LONE_RECORD
              then 1 else 0) <<< 6 |||
           0 <<< 5 |||
           (if pl.length ≤ 255 then 1 else 0) <<< 4 |||
           (if d.id_length > 0 then 1 else 0) <<< 3 ||| d.tnf) ∧
        flagsByte d loc pl.length >>> 5 % 2 = 0) ∧
    (¬ validLocation loc →
      nfc_ndef_record_encode d loc cap =
        Except.error ErrCode.NRF_ERROR_INVALID_PARAM) := by
  constructor
  · intro h
    obtain ⟨hloc, hcap, pl, hpc, hout⟩ := encode_ok_elim h
    refine ⟨pl, hpc, ?_, (flagsByte_bits d loc pl.length htnf).2.2.2.1⟩
    subst hout
    simp only [headerBytes, List.cons_append, List.head?_cons]
    rfl
  · intro hloc
    unfold nfc_ndef_record_encode
    rw [if_pos hloc]

/-- C3 witness: the scenario record at capacity 12 — the flags byte of the
output is the packed formula and has Chunk Flag 0 — and the undefined
location value 0x20 is rejected with `NRF_ERROR_INVALID_PARAM`. -/
theorem encode_flags_byte_spec_witness :
    (∃ pl, descTextEn.payload_constructor
        (12 - maxHeaderSize descTextEn) = Except.ok pl ∧
      ([0xD1, 0x01, 0x03, 0x54, 0x02, 0x65, 0x6E] : List Nat).head? = some
        ((if NDEF_LONE_RECORD = NDEF_FIRST_RECORD ∨
            NDEF_LONE_RECORD = NDEF_LONE_RECORD then 1 else 0) <<< 7 |||
         (if NDEF_LONE_RECORD = NDEF_LAST_RECORD ∨
            NDEF_LONE_RECORD = NDEF_LONE_RECORD then 1 else 0) <<< 6 |||
         0 <<< 5 |||
         (if pl.length ≤ 255 then 1 else 0) <<< 4 |||
         (if descTextEn.id_length > 0 then 1 else 0) <<< 3 |||
         descTextEn.tnf) ∧
      flagsByte descTextEn NDEF_LONE_RECORD pl.length >>> 5 % 2 = 0) ∧
    nfc_ndef_record_encode descTextEn 0x20 12 =
      Except.error ErrCode.NRF_ERROR_INVALID_PARAM :=
  ⟨(encode_flags_byte_spec descTextEn NDEF_LONE_RECORD 12
      [0xD1, 0x01, 0x03, 0x54, 0x02, 0x65, 0x6E] (by decide)).1 rfl,
   (encode_flags_byte_spec descTextEn 0x20 12 [] (by decide)).2 (by decide)⟩

/-- C7: for every successful encode the IL bit of the flags byte is 1 iff the
descriptor's `id_length` is positive; when it is 0 the output is flags byte,
TYPE_LENGTH, PAYLOAD_LENGTH, the Type bytes and the payload — no ID_LENGTH
byte and no ID bytes; when it is 1 the output additionally carries the 1-byte
ID_LENGTH equal to `id_length` right after PAYLOAD_LENGTH and exactly the
`id_length` ID bytes right after the Type bytes. -/
theorem encode_id_presence (d : nfc_ndef_record_desc_t) (loc cap : Nat)
    (out pl : List Nat) (htnf : d.tnf < 8)
    (h : nfc_ndef_record_encode d loc cap = Except.ok out)
    (hpc : d.payload_constructor (cap - maxHeaderSize d) = Except.ok pl) :
    ∃ f, out.head? = some f ∧
      (f >>> 3 % 2 = 1 ↔ 0 < d.id_length) ∧
      (d.id_length = 0 →
        out = f :: d.type_length ::
          (payloadLenField pl.length ++ d.p_type ++ pl)) ∧
      (0 < d.id_length →
        out = f :: d.type_length ::
          (payloadLenField pl.length ++ [d.id_length] ++ d.p_type ++
            d.p_id ++ pl)) := by
  obtain ⟨hloc, hcap, pl2, hpc2, hout⟩ := encode_ok_elim h
  rw [hpc] at hpc2
  injection hpc2 with hpl
  subst hpl
  subst hout
  refine ⟨flagsByte d loc pl.length, ?_, ?_, ?_, ?_⟩
  · simp only [headerBytes, List.cons_append, List.head?_cons]
  · rw [(flagsByte_bits d loc pl.length htnf).2.1]
    unfold idPresentFlag
    split <;> omega
  · intro hid0
    have hnil : d.p_id = [] := by
      have h0 : d.p_id.length = 0 := hid0
      exact List.length_eq_zero.mp h0
    simp [headerBytes, hid0, hnil, List.append_assoc]
  · intro hidp
    simp [headerBytes, hidp, List.append_assoc]

/-- C7 witness: the ID-bearing concrete record at capacity 15. -/
theorem encode_id_presence_witness :
    ∃ f, ([0xDA, 0x02, 0x04, 0x02, 0x54, 0x55, 0x09, 0x08,
        0x01, 0x02, 0x03, 0x04] : List Nat).head? = some f ∧
      (f >>> 3 % 2 = 1 ↔ 0 < descWithId.id_length) ∧
      (descWithId.id_length = 0 →
        [0xDA, 0x02, 0x04, 0x02, 0x54, 0x55, 0x09, 0x08,
          0x01, 0x02, 0x03, 0x04] = f :: descWithId.type_length ::
          (payloadLenField ([0x01, 0x02, 0x03, 0x04] : List Nat).length ++
            descWithId.p_type ++ [0x01, 0x02, 0x03, 0x04])) ∧
      (0 < descWithId.id_length →
        [0xDA, 0x02, 0x04, 0x02, 0x54, 0x55, 0x09, 0x08,
          0x01, 0x02, 0x03, 0x04] = f :: descWithId.type_length ::
          (payloadLenField ([0x01, 0x02, 0x03, 0x04] : List Nat).length ++
            [descWithId.id_length] ++ descWithId.p_type ++
            descWithId.p_id ++ [0x01, 0x02, 0x03, 0x04])) :=
  encode_id_presence descWithId NDEF_LONE_RECORD 15
    [0xDA, 0x02, 0x04, 0x02, 0x54, 0x55, 0x09, 0x08,
      0x01, 0x02, 0x03, 0x04] [0x01, 0x02, 0x03, 0x04]
    (by decide) rfl rfl

/-- C4: when the payload constructor writes exactly 255 bytes a successful
encode sets the SR flag and emits the 1-byte PAYLOAD_LENGTH 255, immediately
followed by the ID_LENGTH/Type/ID section; when it writes exactly 256 bytes a
successful encode clears the SR flag and emits the 4-byte big-endian
PAYLOAD_LENGTH `00 00 01 00`, whose big-endian value is 256. -/
theorem encode_short_record_boundary (d : nfc_ndef_record_desc_t)
    (loc cap : Nat) (out pl : List Nat) (htnf : d.tnf < 8)
    (h : nfc_ndef_record_encode d loc cap = Except.ok out)
    (hpc : d.payload_constructor (cap - maxHeaderSize d) = Except.ok pl) :
    (pl.length = 255 →
      ∃ f, out.head? = some f ∧ f >>> 4 % 2 = 1 ∧
        out.drop 2 = 255 ::
          ((if 0 < d.id_length then [d.id_length] else []) ++ d.p_type ++
            d.p_id ++ pl)) ∧
    (pl.length = 256 →
      ∃ f, out.head? = some f ∧ f >>> 4 % 2 = 0 ∧
        ∃ rest, out.drop 2 = 0 :: 0 :: 1 :: 0 :: rest ∧
          0 * 2 ^ 24 + 0 * 2 ^ 16 + 1 * 2 ^ 8 + 0 = 256 ∧
          rest = (if 0 < d.id_length then [d.id_length] else []) ++
            d.p_type ++ d.p_id ++ pl) := by
  obtain ⟨hloc, hcap, pl2, hpc2, hout⟩ := encode_ok_elim h
  rw [hpc] at hpc2
  injection hpc2 with hpl
  subst hpl
  subst hout
  constructor
  · intro h255
    refine ⟨flagsByte d loc pl.length, ?_, ?_, ?_⟩
    · simp only [headerBytes, List.cons_append, List.head?_cons]
    · rw [(flagsByte_bits d loc pl.length htnf).2.2.1]
      unfold shortRecordFlag
      rw [if_pos (by omega)]
    · simp [headerBytes, payloadLenField, h255, List.append_assoc]
  · intro h256
    refine ⟨flagsByte d loc pl.length, ?_, ?_, ?_⟩
    · simp only [headerBytes, List.cons_append, List.head?_cons]
    · rw [(flagsByte_bits d loc pl.length htnf).2.2.1]
      unfold shortRecordFlag
      rw [if_neg (by omega)]
    · refine ⟨(if 0 < d.id_length then [d.id_length] else []) ++
        d.p_type ++ d.p_id ++ pl, ?_, by norm_num, rfl⟩
      simp [headerBytes, payloadLenField, h256, List.append_assoc]

set_option maxRecDepth 8192 in
/-- C4 witness: the 255-byte-payload record at capacity 262 takes the short
branch of the boundary statement. -/
theorem encode_short_record_boundary_witness :
    ∃ f, (0xD1 :: 0x01 :: 0xFF :: 0x54 ::
        List.replicate 255 7 : List Nat).head? = some f ∧
      f >>> 4 % 2 = 1 ∧
      (0xD1 :: 0x01 :: 0xFF :: 0x54 ::
        List.replicate 255 7 : List Nat).drop 2 = 255 ::
        ((if 0 < descPayload255.id_length then [descPayload255.id_length]
            else []) ++ descPayload255.p_type ++ descPayload255.p_id ++
          List.replicate 255 7) :=
  (encode_short_record_boundary descPayload255 NDEF_LONE_RECORD 262
    (0xD1 :: 0x01 :: 0xFF :: 0x54 :: List.replicate 255 7)
    (List.replicate 255 7) (by decide) rfl rfl).1 rfl

set_option maxRecDepth 8192 in
/-- C10: the defined location values are `First = 0x80`, `Middle = 0x00`,
`Last = 0x40`, `Lone = 0xC0` and the location mask is 0xC0, so for every
successful encode the flags byte ANDed with `NDEF_RECORD_LOCATION_MASK`
equals the location value itself, and a byte is one of the four defined
locations iff all its bits outside the 0xC0 mask are zero. -/
theorem location_flags_invariant (d : nfc_ndef_record_desc_t)
    (loc cap : Nat) (out : List Nat) (f : Nat) (htnf : d.tnf < 8)
    (h : nfc_ndef_record_encode d loc cap = Except.ok out)
    (hf : out.head? = some f) :
    f &&& NDEF_RECORD_LOCATION_MASK = loc ∧
    (NDEF_FIRST_RECORD = 0x80 ∧ NDEF_MIDDLE_RECORD = 0x00 ∧
      NDEF_LAST_RECORD = 0x40 ∧ NDEF_LONE_RECORD = 0xC0 ∧
      NDEF_RECORD_LOCATION_MASK = 0xC0) ∧
    (∀ b, b < 256 →
      (validLocation b ↔ b &&& (255 ^^^ NDEF_RECORD_LOCATION_MASK) = 0)) := by
  refine ⟨?_, ⟨rfl, rfl, rfl, rfl, rfl⟩, by decide⟩
  obtain ⟨hloc, hcap, pl, hpc, hout⟩ := encode_ok_elim h
  subst hout
  simp only [headerBytes, List.cons_append, List.head?_cons,
    Option.some.injEq] at hf
  subst hf
  rw [show NDEF_RECORD_LOCATION_MASK = 192 from rfl]
  rw [(flagsByte_bits d loc pl.length htnf).2.2.2.2]
  rcases hloc with h1 | h1 | h1 | h1 <;> subst h1 <;> decide

/-- C10 witness: the scenario record begins with flags byte 0xD1 and
`0xD1 AND 0xC0 = 0xC0`, the Lone location value. -/
theorem location_flags_invariant_witness :
    (0xD1 : Nat) &&& NDEF_RECORD_LOCATION_MASK = NDEF_LONE_RECORD ∧
    (NDEF_FIRST_RECORD = 0x80 ∧ NDEF_MIDDLE_RECORD = 0x00 ∧
      NDEF_LAST_RECORD = 0x40 ∧ NDEF_LONE_RECORD = 0xC0 ∧
      NDEF_RECORD_LOCATION_MASK = 0xC0) ∧
    (∀ b, b < 256 →
      (validLocation b ↔ b &&& (255 ^^^ NDEF_RECORD_LOCATION_MASK) = 0)) :=
  location_flags_invariant descTextEn NDEF_LONE_RECORD 12
    [0xD1, 0x01, 0x03, 0x54, 0x02, 0x65, 0x6E] 0xD1 (by decide) rfl rfl

end NfcNdef

namespace NfcNdef

/-- C9: every write the encode call performs — on success as well as on
failure — lands inside `[0, capacity)` of the caller-supplied buffer: the
memory at every index at or beyond `capacity` is unchanged by
`nfc_ndef_record_encode_mem`, provided the payload constructor honours its
§4.1 never-write-past-the-available-length contract.  (The record descriptor
and the byte sequences it references are read-only values of the embedding,
so the call cannot mutate them.) -/
theorem encode_mem_frame (d : nfc_ndef_record_desc_t) (loc : Nat)
    (mem : List Nat) (cap i : Nat)
    (hw : ConstructorWithinBounds d.payload_constructor) (hi : cap ≤ i) :
    (nfc_ndef_record_encode_mem d loc mem cap).2[i]? = mem[i]? := by
  unfold nfc_ndef_record_encode_mem
  by_cases hloc : validLocation loc
  · simp only [hloc, not_true_eq_false, if_false]
    by_cases hcap : maxHeaderSize d > cap
    · rw [if_pos hcap]
    · rw [if_neg hcap]
      cases hpc : d.payload_constructor (cap - maxHeaderSize d) with
      | error e => rfl
      | ok pl =>
        have hple : pl.length ≤ cap - maxHeaderSize d := hw _ _ hpc
        have hth := trueHeaderSize_le_max d pl.length
        simp only []
        by_cases hsr : pl.length ≤ 255
        · rw [if_pos hsr]
          rw [blit_getElem_ge _ _ _ _ (by omega)]
          rw [blit_getElem_ge _ _ _ _
            (by rw [headerBytes_length]; omega)]
          rw [blit_getElem_ge _ _ _ _ (by omega)]
        · rw [if_neg hsr]
          rw [blit_getElem_ge _ _ _ _
            (by rw [headerBytes_length]; omega)]
          rw [blit_getElem_ge _ _ _ _ (by omega)]
  · rw [if_pos hloc]

/-- C9 witness: encoding the scenario record into a 14-byte memory with
capacity 12 leaves the byte at index 13 untouched. -/
theorem encode_mem_frame_witness :
    (nfc_ndef_record_encode_mem descTextEn NDEF_LONE_RECORD
        (List.replicate 14 0) 12).2[13]? =
      (List.replicate 14 0 : List Nat)[13]? :=
  encode_mem_frame descTextEn NDEF_LONE_RECORD (List.replicate 14 0) 12 13
    (memcopy_within_bounds binPayloadTextEn) (by decide)

end NfcNdef

namespace NfcNdef

/-- C1: round trip — for every valid record descriptor and valid location,
decoding the buffer produced by a successful encode call (parsing the flags
byte, TYPE_LENGTH, PAYLOAD_LENGTH, the optional ID_LENGTH, then slicing
Type, optional ID, and payload) reproduces the original TNF value, ID bytes,
Type bytes, and payload bytes exactly. -/
theorem decode_encode_roundtrip (d : nfc_ndef_record_desc_t)
    (loc cap : Nat) (pl : List Nat) (hd : validDesc d)
    (hloc : validLocation loc) (hcap : maxHeaderSize d ≤ cap)
    (hpc : d.payload_constructor (cap - maxHeaderSize d) = Except.ok pl)
    (hpl : pl.length < 2 ^ 32) :
    ∃ out, nfc_ndef_record_encode d loc cap = Except.ok out ∧
      decodeRecord out = some ⟨d.tnf, d.p_id, d.p_type, pl⟩ := by
  obtain ⟨htnf, hid, hty, hcw⟩ := hd
  have henc : nfc_ndef_record_encode d loc cap =
      Except.ok (headerBytes d loc pl.length ++ pl) := by
    unfold nfc_ndef_record_encode
    rw [if_neg (by simpa using hloc), if_neg (by omega), hpc]
  refine ⟨_, henc, ?_⟩
  have hbits := flagsByte_bits d loc pl.length htnf
  by_cases hsr : pl.length ≤ 255
  · have hout : headerBytes d loc pl.length ++ pl =
        flagsByte d loc pl.length :: d.type_length :: pl.length ::
          ((if 0 < d.id_length then [d.id_length] else []) ++
            (d.p_type ++ (d.p_id ++ pl))) := by
      simp [headerBytes, payloadLenField, hsr, List.append_assoc]
    rw [hout]
    rw [decodeRecord_cons_sr _ _ _ _
      (by rw [hbits.2.2.1]; unfold shortRecordFlag; rw [if_pos hsr])]
    rw [hbits.1, hbits.2.1]
    exact decodeFields_correct d d.tnf pl
  · have hout : headerBytes d loc pl.length ++ pl =
        flagsByte d loc pl.length :: d.type_length ::
          pl.length >>> 24 % 256 :: pl.length >>> 16 % 256 ::
          pl.length >>> 8 % 256 :: pl.length % 256 ::
          ((if 0 < d.id_length then [d.id_length] else []) ++
            (d.p_type ++ (d.p_id ++ pl))) := by
      simp [headerBytes, payloadLenField, hsr, List.append_assoc]
    rw [hout]
    rw [decodeRecord_cons_long _ _ _ _ _ _ _
      (by rw [hbits.2.2.1]; unfold shortRecordFlag; rw [if_neg hsr])]
    rw [hbits.1, hbits.2.1, be32_recompose pl.length hpl]
    exact decodeFields_correct d d.tnf pl

/-- C1 witness: the ID-bearing concrete record encodes at capacity 20 and
decodes back to its TNF, ID, Type and payload. -/
theorem decode_encode_roundtrip_witness :
    ∃ out, nfc_ndef_record_encode descWithId NDEF_FIRST_RECORD 20 =
        Except.ok out ∧
      decodeRecord out = some ⟨descWithId.tnf, descWithId.p_id,
        descWithId.p_type, [0x01, 0x02, 0x03, 0x04]⟩ :=
  decode_encode_roundtrip descWithId NDEF_FIRST_RECORD 20
    [0x01, 0x02, 0x03, 0x04]
    ⟨by decide, by decide, by decide, memcopy_within_bounds ⟨[1, 2, 3, 4]⟩⟩
    (by decide) (by decide) rfl (by decide)

end NfcNdef
